import Mathlib

/-!
# TradeLab — verification of the backtest / charting / dashboard core

Shallow embedding of the TradeLab repository's numerically relevant code:
the candlestick chart's `formatData` and `calculateSMA`, the database
schema's column types and constraints (`schema.sql`), the trading page's
`calculateTotalPnL`, the dashboard's metric formatting, the axios request
interceptor, and — for the parts of the backtest/risk core whose backend
source is not available — models built from the specification.

Machine numbers are modelled as exact rationals (`ℚ`); JavaScript `null` /
`undefined` / absent values are modelled as `Option`; thrown exceptions as
`Except`.
-/

namespace TradeLab

/-! ## Chart data (CandlestickChart component)

`formatData` maps raw OHLC records `{timestamp, open, high, low, close,
volume}` to TradingView bars `{time, open, high, low, close, volume}` with
`time = getTime()/1000`, `parseFloat` on each price, `volume ? parseFloat :
0` on the volume, then sorts by `(a, b) => a.time - b.time` (ascending by
`time`). -/

/-- A raw OHLC record as received by `formatData`: `timestampMs` models
`new Date(item.timestamp).getTime()` (milliseconds); the numeric string
fields are modelled as the rationals `parseFloat` yields; `volume` may be
absent (`Option`). -/
structure RawBar where
  timestampMs : ℕ
  open_ : ℚ
  high : ℚ
  low : ℚ
  close : ℚ
  volume : Option ℚ
  deriving DecidableEq

/-- A formatted TradingView bar produced by `formatData`. -/
structure ChartBar where
  time : ℚ
  open_ : ℚ
  high : ℚ
  low : ℚ
  close : ℚ
  volume : ℚ
  deriving DecidableEq

/-- The per-item mapping inside `formatData`. -/
def formatBar (item : RawBar) : ChartBar :=
  { time := (item.timestampMs : ℚ) / 1000
  , open_ := item.open_
  , high := item.high
  , low := item.low
  , close := item.close
  , volume := item.volume.getD 0 }

/-- Function `formatData` from the CandlestickChart component: empty/absent input
gives `[]`; otherwise map each record through `formatBar` and sort by the
comparator `(a, b) => a.time - b.time`, i.e. ascending `time`. -/
def formatData (rawData : List RawBar) : List ChartBar :=
  if rawData.length = 0 then []
  else (rawData.map formatBar).mergeSort (fun a b => decide (a.time ≤ b.time))

/-- JavaScript `Array.prototype.slice(s, e)` for in-range indices:
the elements at positions `s, s+1, …, e-1`. -/
def jsSlice {α : Type} (l : List α) (s e : ℕ) : List α :=
  (l.drop s).take (e - s)

/-- A point of the SMA overlay series. -/
structure SMAPoint where
  time : ℚ
  value : ℚ
  deriving DecidableEq

/-- Default bar used to model JavaScript array indexing. -/
def dfltChartBar : ChartBar := ⟨0, 0, 0, 0, 0, 0⟩

/-- Default SMA point. -/
def dfltSMAPoint : SMAPoint := ⟨0, 0⟩

/-- Function `calculateSMA` from the CandlestickChart component: returns `[]` when
`data.length < period`; otherwise, for each `i` from `period - 1` to
`data.length - 1`, pushes `{time: data[i].time, value: average}` where
`average` is the sum of `close` over `data.slice(i - period + 1, i + 1)`
divided by `period`.  (The loop over `i` is embedded as a map over
`List.range`; `i - period + 1` is `i + 1 - period` in `ℕ`.) -/
def calculateSMA (data : List ChartBar) (period : ℕ) : List SMAPoint :=
  if data.length < period then []
  else
    (List.range (data.length - (period - 1))).map fun k =>
      let i := period - 1 + k
      let sum := ((jsSlice data (i + 1 - period) (i + 1)).map ChartBar.close).sum
      let average := sum / (period : ℚ)
      { time := (data.getD i dfltChartBar).time, value := average }

/-- A slice of `p` consecutive elements, read off index by index. -/
theorem jsSlice_eq_map_range {α : Type} (l : List α) (d : α) (s p : ℕ)
    (h : s + p ≤ l.length) :
    jsSlice l s (s + p) = (List.range p).map (fun j => l.getD (s + j) d) := by
  apply List.ext_getElem
  · simp [jsSlice]
    omega
  · intro n h₁ h₂
    have hn : n < p := by
      simpa [jsSlice] using h₂
    have hsn : s + n < l.length := by omega
    simp only [jsSlice, List.getElem_take, List.getElem_drop, List.getElem_map,
      List.getElem_range]
    rw [List.getD_eq_getElem l d hsn]

/-- A three-bar demonstration series (times 1, 2, 3; closes 2, 4, 6). -/
def demoBars : List ChartBar :=
  [⟨1, 0, 0, 0, 2, 0⟩, ⟨2, 0, 0, 0, 4, 0⟩, ⟨3, 0, 0, 0, 6, 0⟩]

/-- C1: for a series with at least `period` bars, `calculateSMA` returns
exactly `length - period + 1` points, and the `k`-th point carries the time
of bar `t = period - 1 + k` and the arithmetic mean of the `period` close
prices of the trailing window `data[k], …, data[k + period - 1]` ending at
bar `t`. -/
theorem calculateSMA_window_mean (data : List ChartBar) (period : ℕ)
    (hp : 1 ≤ period) (hlen : period ≤ data.length) :
    (calculateSMA data period).length = data.length - period + 1 ∧
    ∀ k, k < data.length - period + 1 →
      (calculateSMA data period).getD k dfltSMAPoint =
        { time := (data.getD (period - 1 + k) dfltChartBar).time
        , value := ((List.range period).map
            (fun j => (data.getD (k + j) dfltChartBar).close)).sum / (period : ℚ) } := by
  have hnot : ¬ data.length < period := not_lt.2 hlen
  constructor
  · simp only [calculateSMA, if_neg hnot, List.length_map, List.length_range]
    omega
  · intro k hk
    have hk' : k < data.length - (period - 1) := by omega
    rw [calculateSMA, if_neg hnot]
    rw [List.getD_eq_getElem _ _ (by simpa using hk')]
    simp only [List.getElem_map, List.getElem_range]
    have e1 : period - 1 + k + 1 - period = k := by omega
    have e2 : period - 1 + k + 1 = k + period := by omega
    have e3 : k + period - period = k := by omega
    simp only [e1, e2, e3]
    rw [jsSlice_eq_map_range data dfltChartBar k period (by omega)]
    rw [List.map_map]
    rfl

/-- Witness for C1 on the concrete three-bar series with `period = 2`. -/
theorem calculateSMA_window_mean_witness :
    (calculateSMA demoBars 2).length = 2 ∧
    (calculateSMA demoBars 2).getD 1 dfltSMAPoint = { time := 3, value := 5 } := by
  have h := calculateSMA_window_mean demoBars 2 (by decide) (by decide)
  refine ⟨by rw [h.1]; decide, ?_⟩
  rw [h.2 1 (by decide)]
  norm_num [demoBars, dfltChartBar, List.range_succ]

/-- C3 counterexample: on a series shorter than the window (one bar,
`period = 20`), `calculateSMA` silently returns the empty list — it does
not fail with an `InsufficientDataError`. -/
theorem calculateSMA_short_series_silent : calculateSMA [dfltChartBar] 20 = [] := rfl

/-- C3 (amended): for every series with fewer bars than the window,
`calculateSMA` returns the empty list (no error is raised or surfaced). -/
theorem calculateSMA_short_series_empty (data : List ChartBar) (period : ℕ)
    (h : data.length < period) : calculateSMA data period = [] := by
  simp [calculateSMA, h]

/-- Witness for the amended C3 at a concrete short input. -/
theorem calculateSMA_short_series_empty_witness : calculateSMA [] 5 = [] :=
  calculateSMA_short_series_empty [] 5 (by decide)

/-! ## Database schema (src/database/schema.sql)

Column-level embedding of the tables the claims reference: name, SQL type
(with `DECIMAL(precision, scale)` kept explicit) and nullability (`NOT
NULL` / `PRIMARY KEY` ⇒ not nullable). -/

/-- SQL column types appearing in schema.sql. -/
inductive SqlType
  | decimal (precision scale : ℕ)
  | bigint
  | integer
  | varchar (n : ℕ)
  | text
  | uuid
  | timestamptz
  | date
  | jsonb
  | boolean
  deriving DecidableEq

/-- One column of a table: name, type, and whether NULL is permitted. -/
structure Column where
  name : String
  ty : SqlType
  nullable : Bool
  deriving DecidableEq

/-- The `asset_prices` table (OHLC data). -/
def asset_prices : List Column :=
  [ ⟨"id", .uuid, false⟩
  , ⟨"symbol", .varchar 20, false⟩
  , ⟨"asset_type", .varchar 10, false⟩
  , ⟨"timestamp", .timestamptz, false⟩
  , ⟨"open", .decimal 20 8, false⟩
  , ⟨"high", .decimal 20 8, false⟩
  , ⟨"low", .decimal 20 8, false⟩
  , ⟨"close", .decimal 20 8, false⟩
  , ⟨"volume", .bigint, false⟩
  , ⟨"created_at", .timestamptz, true⟩ ]

/-- The `backtest_results` table. -/
def backtest_results : List Column :=
  [ ⟨"id", .uuid, false⟩
  , ⟨"user_id", .uuid, true⟩
  , ⟨"strategy_id", .uuid, true⟩
  , ⟨"symbol", .varchar 20, false⟩
  , ⟨"asset_type", .varchar 10, false⟩
  , ⟨"start_date", .date, false⟩
  , ⟨"end_date", .date, false⟩
  , ⟨"initial_capital", .decimal 20 2, false⟩
  , ⟨"final_capital", .decimal 20 2, false⟩
  , ⟨"total_return", .decimal 10 4, false⟩
  , ⟨"sharpe_ratio", .decimal 10 4, true⟩
  , ⟨"max_drawdown", .decimal 10 4, true⟩
  , ⟨"win_rate", .decimal 10 4, true⟩
  , ⟨"total_trades", .integer, false⟩
  , ⟨"equity_curve", .jsonb, false⟩
  , ⟨"trades", .jsonb, false⟩
  , ⟨"created_at", .timestamptz, true⟩ ]

/-- The `risk_metrics` table. -/
def risk_metrics : List Column :=
  [ ⟨"id", .uuid, false⟩
  , ⟨"portfolio_id", .uuid, true⟩
  , ⟨"calculated_at", .timestamptz, true⟩
  , ⟨"var_95", .decimal 10 4, true⟩
  , ⟨"cvar_95", .decimal 10 4, true⟩
  , ⟨"sharpe_ratio", .decimal 10 4, true⟩
  , ⟨"sortino_ratio", .decimal 10 4, true⟩
  , ⟨"beta", .decimal 10 4, true⟩
  , ⟨"max_drawdown", .decimal 10 4, true⟩
  , ⟨"monte_carlo_results", .jsonb, true⟩
  , ⟨"created_at", .timestamptz, true⟩ ]

/-- The `paper_trades` table. -/
def paper_trades : List Column :=
  [ ⟨"id", .uuid, false⟩
  , ⟨"user_id", .uuid, true⟩
  , ⟨"portfolio_id", .uuid, true⟩
  , ⟨"symbol", .varchar 20, false⟩
  , ⟨"asset_type", .varchar 10, false⟩
  , ⟨"side", .varchar 4, false⟩
  , ⟨"quantity", .decimal 20 8, false⟩
  , ⟨"price", .decimal 20 8, false⟩
  , ⟨"total_value", .decimal 20 2, false⟩
  , ⟨"broker", .varchar 20, false⟩
  , ⟨"status", .varchar 20, false⟩
  , ⟨"executed_at", .timestamptz, true⟩
  , ⟨"created_at", .timestamptz, true⟩ ]

/-- Decimal scale (number of digits after the decimal point) of a named
column, when that column exists and is a `DECIMAL`. -/
def colScale (cols : List Column) (n : String) : Option ℕ :=
  (cols.find? (fun c => c.name == n)).bind fun c =>
    match c.ty with
    | .decimal _ s => some s
    | _ => none

/-- Whether a named column admits NULL. -/
def colNullable (cols : List Column) (n : String) : Option Bool :=
  (cols.find? (fun c => c.name == n)).map Column.nullable

/-- C4: in the persisted schema, every price and quantity column
(`asset_prices.open/high/low/close`, `paper_trades.quantity/price`) has
decimal scale 8, and every return/ratio/percentage column
(`backtest_results.total_return/sharpe_ratio/max_drawdown/win_rate`,
`risk_metrics.var_95/cvar_95/sharpe_ratio/sortino_ratio/beta/max_drawdown`)
has decimal scale 4. -/
theorem schema_numeric_precision :
    colScale asset_prices "open" = some 8 ∧
    colScale asset_prices "high" = some 8 ∧
    colScale asset_prices "low" = some 8 ∧
    colScale asset_prices "close" = some 8 ∧
    colScale paper_trades "quantity" = some 8 ∧
    colScale paper_trades "price" = some 8 ∧
    colScale backtest_results "total_return" = some 4 ∧
    colScale backtest_results "sharpe_ratio" = some 4 ∧
    colScale backtest_results "max_drawdown" = some 4 ∧
    colScale backtest_results "win_rate" = some 4 ∧
    colScale risk_metrics "var_95" = some 4 ∧
    colScale risk_metrics "cvar_95" = some 4 ∧
    colScale risk_metrics "sharpe_ratio" = some 4 ∧
    colScale risk_metrics "sortino_ratio" = some 4 ∧
    colScale risk_metrics "beta" = some 4 ∧
    colScale risk_metrics "max_drawdown" = some 4 := by
  decide

/-! ## Uniqueness of stored price bars -/

/-- A row of `asset_prices` (key fields plus OHLCV payload). -/
structure AssetPriceRow where
  symbol : String
  asset_type : String
  timestamp : ℕ
  open_ : ℚ
  high : ℚ
  low : ℚ
  close : ℚ
  volume : ℤ
  deriving DecidableEq

/-- Insertion into `asset_prices` under the schema's
`UNIQUE(symbol, asset_type, timestamp)` constraint: a row whose key triple
already occurs in the table is rejected (`none`); otherwise the row is
appended. -/
def insertAssetPrice (table : List AssetPriceRow) (r : AssetPriceRow) :
    Option (List AssetPriceRow) :=
  if table.any (fun q =>
      decide (q.symbol = r.symbol ∧ q.asset_type = r.asset_type ∧
        q.timestamp = r.timestamp))
  then none
  else some (table ++ [r])

/-- C5: `formatData` returns a permutation of its (formatted) input that is
ordered ascending by `time`, and a stored-price insert whose
`(symbol, asset_type, timestamp)` triple already occurs in the table is
rejected. -/
theorem formatData_sorted_and_prices_unique (raw : List RawBar) :
    (formatData raw).Perm (raw.map formatBar) ∧
    (formatData raw).Pairwise (fun a b => a.time ≤ b.time) ∧
    ∀ (table : List AssetPriceRow) (r q : AssetPriceRow), q ∈ table →
      q.symbol = r.symbol → q.asset_type = r.asset_type →
      q.timestamp = r.timestamp → insertAssetPrice table r = none := by
  refine ⟨?_, ?_, ?_⟩
  · unfold formatData
    by_cases h : raw.length = 0
    · rw [if_pos h, List.length_eq_zero.mp h]
      simp
    · rw [if_neg h]
      exact List.mergeSort_perm _ _
  · unfold formatData
    by_cases h : raw.length = 0
    · rw [if_pos h]
      simp
    · rw [if_neg h]
      have hs := @List.sorted_mergeSort ChartBar
        (fun a b => decide (a.time ≤ b.time))
        (fun a b c hab hbc => by
          simp only [decide_eq_true_eq] at *
          exact le_trans hab hbc)
        (fun a b => by
          simp only [Bool.or_eq_true, decide_eq_true_eq]
          exact le_total _ _)
        (raw.map formatBar)
      exact hs.imp (fun h => by simpa using h)
  · intro table r q hq h1 h2 h3
    unfold insertAssetPrice
    rw [if_pos]
    exact List.any_eq_true.2 ⟨q, hq, by simp [h1, h2, h3]⟩

/-- A concrete stored-price row. -/
def demoRow : AssetPriceRow := ⟨"AAPL", "stock", 100, 1, 1, 1, 1, 0⟩

/-- Witness for C5: inserting a duplicate of the sole stored row is
rejected. -/
theorem formatData_sorted_and_prices_unique_witness :
    insertAssetPrice [demoRow] demoRow = none :=
  (formatData_sorted_and_prices_unique []).2.2 [demoRow] demoRow demoRow
    (List.mem_singleton.mpr rfl) rfl rfl rfl

/-! ## Axios request interceptor (api library)

`api.interceptors.request.use`: read `supabase.auth.token` from
localStorage; when present, decode the JWT payload and compare its `exp`
claim against `Math.floor(Date.now() / 1000)`.  Expired or undecodable
tokens are removed from localStorage and the request goes out without an
`Authorization` header; otherwise `Authorization: Bearer <token>` is set.
The decoding pipeline (`atob` + `JSON.parse` + `.exp`) is abstracted as a
function from the token string to its `exp` claim, `none` on any decode
failure. -/

/-- The request interceptor. Arguments: the payload decoder, the stored
token (localStorage slot), and the current Unix time. Returns the
localStorage slot after the interceptor ran and the `Authorization` header
value placed on the request (if any). -/
def requestInterceptor (decodeExp : String → Option ℤ)
    (stored : Option String) (now : ℤ) : Option String × Option String :=
  match stored with
  | none => (none, none)
  | some token =>
    match decodeExp token with
    | none => (none, none)
    | some e => if e < now then (none, none)
                else (some token, some ("Bearer " ++ token))

/-- C9: the outgoing request carries `Authorization: Bearer <token>` iff
localStorage holds a token whose decoded `exp` is not earlier than the
current time; an expired or undecodable token is removed from localStorage
and no `Authorization` header is sent. -/
theorem requestInterceptor_bearer_iff (decodeExp : String → Option ℤ)
    (stored : Option String) (now : ℤ) :
    ((requestInterceptor decodeExp stored now).2 ≠ none ↔
      ∃ t e, stored = some t ∧ decodeExp t = some e ∧ now ≤ e) ∧
    (∀ t, stored = some t →
      (decodeExp t = none ∨ ∃ e, decodeExp t = some e ∧ e < now) →
      requestInterceptor decodeExp stored now = (none, none)) ∧
    (∀ t e, stored = some t → decodeExp t = some e → now ≤ e →
      requestInterceptor decodeExp stored now =
        (some t, some ("Bearer " ++ t))) := by
  refine ⟨?_, ?_, ?_⟩
  · constructor
    · intro h
      match hs : stored with
      | none => simp [requestInterceptor, hs] at h
      | some t =>
        match hd : decodeExp t with
        | none => simp [requestInterceptor, hs, hd] at h
        | some e =>
          by_cases he : e < now
          · simp [requestInterceptor, hs, hd, he] at h
          · exact ⟨t, e, rfl, hd, by omega⟩
    · rintro ⟨t, e, hs, hd, he⟩
      simp [requestInterceptor, hs, hd, not_lt.2 he]
  · rintro t hs (hd | ⟨e, hd, he⟩)
    · simp [requestInterceptor, hs, hd]
    · simp [requestInterceptor, hs, hd, he]
  · intro t e hs hd he
    simp [requestInterceptor, hs, hd, not_lt.2 he]

/-- Witness for C9: a valid stored token yields a Bearer header, at the
concrete decoder mapping "tok" to `exp = 100` with `now = 50`. -/
theorem requestInterceptor_bearer_iff_witness :
    requestInterceptor (fun s => if s = "tok" then some 100 else none)
      (some "tok") 50 = (some "tok", some ("Bearer " ++ "tok")) :=
  (requestInterceptor_bearer_iff (fun s => if s = "tok" then some 100 else none)
    (some "tok") 50).2.2 "tok" 100 rfl (by simp) (by omega)

/-! ## Trading page P&L (calculateTotalPnL)

`calculateTotalPnL` iterates the positions, fetching the latest price for
each; a response carrying `data_preview` contributes
`(last_price - average_price) * quantity` to the running total, a response
without `data_preview` contributes nothing, and any thrown fetch error is
caught and makes the whole function return 0. -/

/-- A brokerage position as used by the Trading page. -/
structure Position where
  symbol : String
  asset_type : String
  quantity : ℚ
  average_price : ℚ
  deriving DecidableEq

/-- Outcome of `dataAPI.fetchData` for one position: the call throws, or
returns a response without `data_preview`, or returns
`data_preview.last_price`. -/
inductive FetchOutcome
  | fetchError
  | noPreview
  | preview (last_price : ℚ)
  deriving DecidableEq

/-- The `for … of` loop body of `calculateTotalPnL`, threading the running
`totalPnL`; a thrown fetch surfaces as `Except.error`. -/
def pnlLoop (fetch : Position → FetchOutcome) :
    List Position → ℚ → Except Unit ℚ
  | [], total => .ok total
  | p :: rest, total =>
    match fetch p with
    | .fetchError => .error ()
    | .noPreview => pnlLoop fetch rest total
    | .preview c => pnlLoop fetch rest (total + (c - p.average_price) * p.quantity)

/-- Function `calculateTotalPnL` from the Trading page: 0 when `positions.positions`
is absent; otherwise run the loop from 0, catching any thrown error as 0. -/
def calculateTotalPnL (positions : Option (List Position))
    (fetch : Position → FetchOutcome) : ℚ :=
  match positions with
  | none => 0
  | some ps =>
    match pnlLoop fetch ps 0 with
    | .error _ => 0
    | .ok t => t

/-- A single position's contribution to the P&L total. -/
def positionPnl (fetch : Position → FetchOutcome) (p : Position) : ℚ :=
  match fetch p with
  | .preview c => (c - p.average_price) * p.quantity
  | _ => 0

/-- When no fetch throws, the loop adds every position's contribution to
the accumulator. -/
theorem pnlLoop_ok (fetch : Position → FetchOutcome) (ps : List Position)
    (h : ∀ p ∈ ps, fetch p ≠ .fetchError) (acc : ℚ) :
    pnlLoop fetch ps acc = .ok (acc + (ps.map (positionPnl fetch)).sum) := by
  induction ps generalizing acc with
  | nil => simp [pnlLoop]
  | cons p rest ih =>
    have hp := h p (List.mem_cons_self p rest)
    have hrest : ∀ q ∈ rest, fetch q ≠ .fetchError :=
      fun q hq => h q (List.mem_cons_of_mem p hq)
    match hf : fetch p with
    | .fetchError => exact absurd hf hp
    | .noPreview =>
      rw [pnlLoop, hf, ih hrest]
      simp [positionPnl, hf]
    | .preview c =>
      have step : pnlLoop fetch (p :: rest) acc
          = pnlLoop fetch rest (acc + (c - p.average_price) * p.quantity) := by
        rw [pnlLoop, hf]
      rw [step, ih hrest]
      congr 1
      simp only [List.map_cons, List.sum_cons, positionPnl, hf]
      ring

/-- When some fetch throws, the loop errors out. -/
theorem pnlLoop_error (fetch : Position → FetchOutcome) (ps : List Position)
    (h : ∃ p ∈ ps, fetch p = .fetchError) (acc : ℚ) :
    pnlLoop fetch ps acc = .error () := by
  induction ps generalizing acc with
  | nil => simp at h
  | cons p rest ih =>
    match hf : fetch p with
    | .fetchError => rw [pnlLoop, hf]
    | .noPreview =>
      rw [pnlLoop, hf]
      rcases h with ⟨q, hq, hqe⟩
      rcases List.mem_cons.mp hq with rfl | hq'
      · rw [hf] at hqe; cases hqe
      · exact ih ⟨q, hq', hqe⟩ acc
    | .preview c =>
      rw [pnlLoop, hf]
      rcases h with ⟨q, hq, hqe⟩
      rcases List.mem_cons.mp hq with rfl | hq'
      · rw [hf] at hqe; cases hqe
      · exact ih ⟨q, hq', hqe⟩ _

/-- C10: `calculateTotalPnL` returns 0 for an absent or empty position
list; when every fetch succeeds it returns the sum over positions of
`(last_price - average_price) * quantity`, where a position without
`data_preview` contributes 0; and when any fetch throws, the whole
computation returns 0. -/
theorem calculateTotalPnL_spec (fetch : Position → FetchOutcome) :
    calculateTotalPnL none fetch = 0 ∧
    calculateTotalPnL (some []) fetch = 0 ∧
    (∀ ps : List Position, (∀ p ∈ ps, fetch p ≠ .fetchError) →
      calculateTotalPnL (some ps) fetch = (ps.map (positionPnl fetch)).sum) ∧
    (∀ ps : List Position, (∃ p ∈ ps, fetch p = .fetchError) →
      calculateTotalPnL (some ps) fetch = 0) := by
  refine ⟨rfl, rfl, ?_, ?_⟩
  · intro ps h
    rw [calculateTotalPnL, pnlLoop_ok fetch ps h 0]
    simp
  · intro ps h
    rw [calculateTotalPnL, pnlLoop_error fetch ps h 0]

/-- A concrete position. -/
def demoPosition : Position := ⟨"AAPL", "stock", 3, 5⟩

/-- Witness for C10: with the one fetch throwing, the total is 0. -/
theorem calculateTotalPnL_spec_witness :
    calculateTotalPnL (some [demoPosition]) (fun _ => .fetchError) = 0 :=
  (calculateTotalPnL_spec (fun _ => .fetchError)).2.2.2 [demoPosition]
    ⟨demoPosition, List.mem_singleton.mpr rfl, rfl⟩

/-! ## Dashboard and Backtest-page metric display

`Dashboard.jsx`: `formatPercentage` renders `null`/`undefined`/`NaN` as
the string "0.00%", and the "Avg Sharpe Ratio" card averages the recent
backtests' `sharpe_ratio` values counting every non-numeric value as 0
while still dividing by the full count.  The Backtest results page renders
`sharpe_ratio` as "N/A" when it is falsy.  An undefined metric is modelled
as `none`. -/

/-- JavaScript `x.toFixed(2)` on an exact rational: round to two decimal
places (half away handled as half-up, which agrees on every value used
here) and print with two fractional digits. -/
def toFixed2 (v : ℚ) : String :=
  let n : ℤ := ⌊v * 100 + 1 / 2⌋
  let a := n.natAbs
  (if n < 0 then "-" else "") ++ toString (a / 100) ++ "." ++
    (if a % 100 < 10 then "0" else "") ++ toString (a % 100)

/-- Function `formatPercentage` from `Dashboard.jsx`: `null`/`undefined`/`NaN`
(modelled as `none`) yields "0.00%", otherwise `(value * 100).toFixed(2)`
followed by "%". -/
def formatPercentage (value : Option ℚ) : String :=
  match value with
  | none => "0.00%"
  | some v => toFixed2 (v * 100) ++ "%"

/-- The Dashboard's "Avg Sharpe Ratio" card: with at least one recent
backtest, sum the `sharpe_ratio` values treating every non-numeric value
as 0, divide by the total count and render with `toFixed(2)`; with no
backtests, render the literal "0.00". -/
def dashAvgSharpeDisplay (recentBacktests : List (Option ℚ)) : String :=
  if recentBacktests.length > 0 then
    toFixed2 ((recentBacktests.map (fun s => s.getD 0)).sum / recentBacktests.length)
  else "0.00"

/-- The Backtest results page's Sharpe card: a falsy `sharpe_ratio`
(null, undefined, or 0) renders as "N/A", otherwise `toFixed(2)`. -/
def backtestSharpeDisplay (s : Option ℚ) : String :=
  match s with
  | none => "N/A"
  | some v => if v = 0 then "N/A" else toFixed2 v

/-- C7 counterexample: the Dashboard renders an undefined metric exactly
as it renders the number zero — `formatPercentage` maps `none` and
`some 0` to the same string "0.00%", and the Avg Sharpe card renders a
single backtest with undefined Sharpe as "0.00", identically to one whose
Sharpe is 0. -/
theorem dashboard_renders_undefined_as_zero :
    formatPercentage none = "0.00%" ∧
    formatPercentage (some 0) = "0.00%" ∧
    dashAvgSharpeDisplay [none] = "0.00" ∧
    dashAvgSharpeDisplay [some 0] = "0.00" := by
  have hf : toFixed2 0 = "0.00" := by
    have harg : ((0 : ℚ) * 100 + 1 / 2) = 1 / 2 := by norm_num
    have hz : ⌊(1 / 2 : ℚ)⌋ = 0 := by
      rw [Int.floor_eq_zero_iff]
      constructor <;> norm_num
    rw [toFixed2, harg, hz]
    rfl
  refine ⟨rfl, ?_, ?_, ?_⟩
  · show toFixed2 ((0 : ℚ) * 100) ++ "%" = "0.00%"
    have : ((0 : ℚ) * 100) = 0 := by norm_num
    rw [this, hf]
    rfl
  · show toFixed2 _ = "0.00"
    norm_num [hf]
  · show toFixed2 _ = "0.00"
    norm_num [hf]

/-- C7 (amended): the Backtest page does render an undefined Sharpe as
"N/A", but the Dashboard silently replaces undefined by zero: its
`formatPercentage` renders `none` as "0.00%", and its average Sharpe is
unchanged when every undefined `sharpe_ratio` is replaced by the number 0. -/
theorem dashboard_coerces_undefined_to_zero (bts : List (Option ℚ)) :
    backtestSharpeDisplay none = "N/A" ∧
    formatPercentage none = "0.00%" ∧
    dashAvgSharpeDisplay bts =
      dashAvgSharpeDisplay (bts.map fun s => some (s.getD 0)) := by
  refine ⟨rfl, rfl, ?_⟩
  unfold dashAvgSharpeDisplay
  simp only [List.length_map, List.map_map, Function.comp_def, Option.getD_some]

/-- Witness for the amended C7 at a concrete backtest list. -/
theorem dashboard_coerces_undefined_to_zero_witness :
    dashAvgSharpeDisplay [none, some 2] =
      dashAvgSharpeDisplay [some 0, some 2] :=
  (dashboard_coerces_undefined_to_zero [none, some 2]).2.2

/-! ## Backtest / risk core, modelled from the spec

The backend that generates signals, simulates the backtest, analyzes
performance and runs Monte Carlo is code of this repository that is not
under `src/` (only its callers — the Backtest page, the Dashboard — and the
persistence schema are).  The definitions below are modelled from the
specification (§4.1–§4.4, §5, §7); each doc comment names the missing
piece. -/

/-- Modelled from the spec (§7): the caller-visible error kinds relevant
here (backend signal/backtest error type is not under `src/`). -/
inductive CoreError
  | invalidParameter
  | insufficientData
  deriving DecidableEq

/-- Signal states (spec §3, SignalPoint.state). -/
inductive SigState
  | FLAT
  | LONG
  deriving DecidableEq

/-- A price bar (spec §3, PriceBar). -/
structure PriceBar where
  timestamp : ℕ
  open_ : ℚ
  high : ℚ
  low : ℚ
  close : ℚ
  volume : ℕ
  deriving DecidableEq

/-- Modelled from the spec (§4.1, backend SMA absent from `src/`): the
simple moving average over the trailing window of `w` bars ending at bar
`t`. -/
def smaAt (closes : List ℚ) (t w : ℕ) : ℚ :=
  ((closes.drop (t + 1 - w)).take w).sum / (w : ℚ)

/-- Modelled from the spec (§4.1): the per-bar signal update — `FLAT`
before `long_window` bars exist, then `LONG` when SMA(short) > SMA(long),
`FLAT` when SMA(short) < SMA(long), and the previous bar's state on an
exact tie. -/
def signalStep (closes : List ℚ) (shortW longW : ℕ)
    (acc : List SigState × SigState) (t : ℕ) : List SigState × SigState :=
  let st :=
    if t + 1 < longW then SigState.FLAT
    else if smaAt closes t longW < smaAt closes t shortW then SigState.LONG
    else if smaAt closes t shortW < smaAt closes t longW then SigState.FLAT
    else acc.2
  (acc.1 ++ [st], st)

/-- Modelled from the spec (§4.1): the signal state series, one state per
bar. -/
def signalSeries (closes : List ℚ) (shortW longW : ℕ) : List SigState :=
  ((List.range closes.length).foldl (signalStep closes shortW longW)
    ([], SigState.FLAT)).1

/-- Modelled from the spec (§4.1, §7, backend signal generator absent from
`src/`): signal generation fails with `InsufficientDataError` when the
series has fewer bars than `long_window`. -/
def generateSignals (closes : List ℚ) (shortW longW : ℕ) :
    Except CoreError (List SigState) :=
  if closes.length < longW then .error .insufficientData
  else .ok (signalSeries closes shortW longW)

/-- A completed trade (spec §3, Trade). -/
structure Trade where
  entry_time : ℕ
  exit_time : ℕ
  quantity : ℚ
  entry_price : ℚ
  exit_price : ℚ
  pnl : ℚ
  deriving DecidableEq

/-- The simulator's instance-local state (spec §4.2). -/
structure SimState where
  cash : ℚ
  quantity : ℚ
  entry_price : ℚ
  entry_time : ℕ
  pos : SigState
  trades : List Trade
  equity : List ℚ
  deriving DecidableEq

/-- Modelled from the spec (§4.2, backend simulator absent from `src/`):
one bar of the event loop.  `sig` is the signal executed at this bar (the
one computed at the previous bar's close).  Transition to `LONG` spends
all cash at this bar's open; transition to `FLAT` liquidates at this bar's
open and appends a `Trade` with `pnl = (exit - entry) * quantity`; every
bar appends one mark-to-market equity point `cash + quantity * close`. -/
def stepBar (st : SimState) (bar : PriceBar) (sig : SigState) : SimState :=
  let st' :=
    if st.pos = SigState.FLAT ∧ sig = SigState.LONG then
      { st with
        cash := 0
        quantity := st.cash / bar.open_
        entry_price := bar.open_
        entry_time := bar.timestamp
        pos := SigState.LONG }
    else if st.pos = SigState.LONG ∧ sig = SigState.FLAT then
      { st with
        cash := st.quantity * bar.open_
        quantity := 0
        pos := SigState.FLAT
        trades := st.trades ++
          [⟨st.entry_time, bar.timestamp, st.quantity, st.entry_price,
            bar.open_, (bar.open_ - st.entry_price) * st.quantity⟩] }
    else st
  { st' with equity := st'.equity ++ [st'.cash + st'.quantity * bar.close] }

/-- Modelled from the spec (§4.2, look-ahead rule): the signal executed at
bar `t` is the one computed at bar `t - 1`; bar 0 executes no signal
(`FLAT`). -/
def executedSignals (sigs : List SigState) : List SigState :=
  SigState.FLAT :: sigs

/-- A simulator state holding no open position: all value in cash, the
given trade ledger and equity history. -/
def flatState (cash ep : ℚ) (et : ℕ) (tr : List Trade) (eq0 : List ℚ) :
    SimState :=
  { cash := cash
    quantity := 0
    entry_price := ep
    entry_time := et
    pos := SigState.FLAT
    trades := tr
    equity := eq0 }

/-- Modelled from the spec (§4.2): run the bar-by-bar loop from an
all-cash start. -/
def simulate (bars : List PriceBar) (sigs : List SigState) (capital : ℚ) :
    SimState :=
  (bars.zip (executedSignals sigs)).foldl
    (fun st p => stepBar st p.1 p.2)
    (flatState capital 0 0 [] [])

/-- Arithmetic mean of a rational list (0 for the empty list, by the
division-by-zero convention). -/
def meanQ (l : List ℚ) : ℚ := l.sum / (l.length : ℚ)

/-- Population variance of a rational list. -/
def varianceQ (l : List ℚ) : ℚ :=
  ((l.map fun x => (x - meanQ l) ^ 2).sum) / (l.length : ℚ)

/-- Modelled from the spec (§4.3): per-bar simple returns
`r_t = equity_t / equity_(t-1) - 1` along the equity curve. -/
def perBarReturns (equity : List ℚ) : List ℚ :=
  (equity.zip equity.tail).map fun p => p.2 / p.1 - 1

/-- One drawdown step: update the running peak and the running maximum of
`(peak - equity) / peak`. -/
def ddStep (acc : ℚ × ℚ) (x : ℚ) : ℚ × ℚ :=
  let peak := max acc.1 x
  (peak, max acc.2 ((peak - x) / peak))

/-- Modelled from the spec (§4.3): maximum drawdown — the largest
`(peak_so_far - equity) / peak_so_far` along the curve. -/
def maxDrawdownQ (equity : List ℚ) : ℚ :=
  (equity.foldl ddStep (0, 0)).2

/-- Modelled from the spec (§4.3): win rate — the fraction of trades with
positive realized P&L, undefined (`none`) when there are no trades. -/
def winRateQ (trades : List Trade) : Option ℚ :=
  if trades.length = 0 then none
  else some (((trades.filter fun t => decide (0 < t.pnl)).length : ℚ) /
    (trades.length : ℚ))

/-- Modelled from the spec (§4.3): annualized Sharpe ratio
`mean(r - risk_free_daily) / stdev(r) * sqrt(periods_per_year)`, guarded:
`none` when there are fewer than 2 return observations or the standard
deviation is zero.  The (irrational) square root is abstracted as the
parameter `sqrtQ`; the guard compares the (rational) variance with 0. -/
def sharpeRatioQ (sqrtQ : ℚ → ℚ) (riskFreeDaily periodsPerYear : ℚ)
    (r : List ℚ) : Option ℚ :=
  if r.length < 2 ∨ varianceQ r = 0 then none
  else some (meanQ (r.map fun x => x - riskFreeDaily) / sqrtQ (varianceQ r) *
    sqrtQ periodsPerYear)

/-- A backtest result (spec §3/§6).  The ratio fields are `Option`-valued
because the persisted schema admits NULL for them and the analyzer reports
degenerate metrics as undefined. -/
structure BacktestResult where
  initial_capital : ℚ
  final_capital : ℚ
  total_return : ℚ
  sharpe_ratio : Option ℚ
  max_drawdown : Option ℚ
  win_rate : Option ℚ
  total_trades : ℕ
  trades : List Trade
  equity_curve : List ℚ
  deriving DecidableEq

/-- Modelled from the spec (§4.1–§4.3, backend absent from `src/`): run a
backtest — generate signals (surfacing `InsufficientDataError`), simulate,
and analyze.  `final_capital` is the last mark-to-market equity point. -/
def runBacktest (sqrtQ : ℚ → ℚ) (riskFreeDaily periodsPerYear : ℚ)
    (bars : List PriceBar) (shortW longW : ℕ) (capital : ℚ) :
    Except CoreError BacktestResult :=
  match generateSignals (bars.map PriceBar.close) shortW longW with
  | .error e => .error e
  | .ok sigs =>
    let st := simulate bars sigs capital
    let finalCap := st.equity.getLast?.getD capital
    .ok { initial_capital := capital
        , final_capital := finalCap
        , total_return := (finalCap - capital) / capital
        , sharpe_ratio := sharpeRatioQ sqrtQ riskFreeDaily periodsPerYear
            (perBarReturns st.equity)
        , max_drawdown := some (maxDrawdownQ st.equity)
        , win_rate := winRateQ st.trades
        , total_trades := st.trades.length
        , trades := st.trades
        , equity_curve := st.equity }

/-! ### Helper lemmas about the modelled core -/

/-- Each signal step appends exactly one state. -/
theorem foldl_signalStep_length (closes : List ℚ) (shortW longW : ℕ)
    (l : List ℕ) (acc : List SigState × SigState) :
    ((l.foldl (signalStep closes shortW longW) acc).1).length =
      acc.1.length + l.length := by
  induction l generalizing acc with
  | nil => simp
  | cons t rest ih =>
    rw [List.foldl_cons, ih]
    simp [signalStep]
    omega

/-- The signal series has one state per bar. -/
theorem signalSeries_length (closes : List ℚ) (shortW longW : ℕ) :
    (signalSeries closes shortW longW).length = closes.length := by
  rw [signalSeries, foldl_signalStep_length]
  simp

/-- A bar that executes no signal leaves the flat state flat, appending one
equity point worth the cash. -/
theorem stepBar_flat (bar : PriceBar) (cash ep : ℚ) (et : ℕ)
    (tr : List Trade) (eq0 : List ℚ) :
    stepBar (flatState cash ep et tr eq0) bar SigState.FLAT =
      flatState cash ep et tr (eq0 ++ [cash]) := by
  simp [stepBar, flatState]

/-- A run of bars that all execute `FLAT` leaves cash, position and ledger
unchanged and marks the equity curve with one cash-valued point per bar. -/
theorem foldl_stepBar_flat (ps : List (PriceBar × SigState))
    (h : ∀ p ∈ ps, p.2 = SigState.FLAT) (cash ep : ℚ) (et : ℕ)
    (tr : List Trade) (eq0 : List ℚ) :
    ps.foldl (fun st p => stepBar st p.1 p.2) (flatState cash ep et tr eq0) =
      flatState cash ep et tr (eq0 ++ List.replicate ps.length cash) := by
  induction ps generalizing eq0 with
  | nil => simp
  | cons p rest ih =>
    have hp : p.2 = SigState.FLAT := h p (List.mem_cons_self p rest)
    have hrest : ∀ q ∈ rest, q.2 = SigState.FLAT :=
      fun q hq => h q (List.mem_cons_of_mem p hq)
    rw [List.foldl_cons, hp, stepBar_flat, ih hrest]
    simp [List.replicate_succ, List.append_assoc]

/-- With an all-`FLAT` signal series the simulation never trades: it ends
flat with the initial cash and a constant equity curve, one point per
(zipped) bar. -/
theorem simulate_all_flat (bars : List PriceBar) (sigs : List SigState)
    (capital : ℚ) (h : ∀ s ∈ sigs, s = SigState.FLAT) :
    simulate bars sigs capital =
      flatState capital 0 0 []
        (List.replicate (min bars.length (sigs.length + 1)) capital) := by
  rw [simulate]
  have hz : ∀ p ∈ bars.zip (executedSignals sigs), p.2 = SigState.FLAT := by
    intro p hp
    rcases p with ⟨b, s⟩
    have hs : s ∈ executedSignals sigs := (List.of_mem_zip hp).2
    rcases List.mem_cons.mp hs with h0 | hmem
    · exact h0
    · exact h s hmem
  rw [foldl_stepBar_flat _ hz capital 0 0 [] []]
  simp [executedSignals, List.length_zip]

/-- The mean of a constant list is that constant (or 0 when empty). -/
theorem meanQ_of_const (l : List ℚ) (c : ℚ) (h : ∀ x ∈ l, x = c)
    (hne : l ≠ []) : meanQ l = c := by
  have hlen : (l.length : ℚ) ≠ 0 := by
    have : l.length ≠ 0 := fun h0 => hne (List.length_eq_zero.mp h0)
    exact_mod_cast this
  rw [meanQ, List.sum_eq_card_nsmul l c h, nsmul_eq_mul]
  exact mul_div_cancel_left₀ c hlen

/-- The variance of a constant list is 0. -/
theorem varianceQ_of_const (l : List ℚ) (c : ℚ) (h : ∀ x ∈ l, x = c) :
    varianceQ l = 0 := by
  rcases eq_or_ne l [] with rfl | hne
  · simp [varianceQ]
  · have hm := meanQ_of_const l c h hne
    rw [varianceQ]
    have hz : (l.map fun x => (x - meanQ l) ^ 2).sum = 0 := by
      apply List.sum_eq_zero
      intro y hy
      rcases List.mem_map.mp hy with ⟨x, hx, rfl⟩
      rw [h x hx, hm]
      ring
    rw [hz, zero_div]

/-- Every per-bar return of a constant equity curve equals `c / c - 1`. -/
theorem perBarReturns_of_const (l : List ℚ) (c : ℚ) (h : ∀ x ∈ l, x = c) :
    ∀ r ∈ perBarReturns l, r = c / c - 1 := by
  intro r hr
  rcases List.mem_map.mp hr with ⟨⟨a, b⟩, hab, rfl⟩
  have h1 : a ∈ l := (List.of_mem_zip hab).1
  have h2 : b ∈ l := List.tail_subset l (List.of_mem_zip hab).2
  rw [h a h1, h b h2]

/-- The drawdown fold keeps the running maximum at 0 along a constant
curve. -/
theorem foldl_ddStep_const (c : ℚ) (l : List ℚ) (h : ∀ x ∈ l, x = c)
    (p : ℚ) (hp : p = 0 ∨ p = max 0 c) :
    (l.foldl ddStep (p, 0)).2 = 0 := by
  induction l generalizing p with
  | nil => rfl
  | cons x rest ih =>
    have hx : x = c := h x (List.mem_cons_self x rest)
    have hrest : ∀ y ∈ rest, y = c :=
      fun y hy => h y (List.mem_cons_of_mem x hy)
    have hpeak : max p x = max 0 c := by
      rcases hp with rfl | rfl
      · rw [hx, max_comm]
      · rw [hx, max_assoc, max_self]
    have hdd : (max 0 c - x) / max 0 c = 0 := by
      rw [hx]
      rcases le_total c 0 with hc | hc
      · rw [max_eq_left hc]
        simp
      · rw [max_eq_right hc, sub_self, zero_div]
    rw [List.foldl_cons]
    have hstep : ddStep (p, 0) x = (max 0 c, 0) := by
      rw [ddStep]
      simp only [hpeak, hdd]
      simp
    rw [hstep]
    exact ih hrest (max 0 c) (Or.inr rfl)

/-- The maximum drawdown of a constant equity curve is 0. -/
theorem maxDrawdownQ_of_const (l : List ℚ) (c : ℚ) (h : ∀ x ∈ l, x = c) :
    maxDrawdownQ l = 0 := by
  rw [maxDrawdownQ]
  exact foldl_ddStep_const c l h 0 (Or.inl rfl)

/-- The last element of a constant list (defaulting to the constant) is
the constant. -/
theorem getLastD_of_const (l : List ℚ) (c : ℚ) (h : ∀ x ∈ l, x = c) :
    l.getLast?.getD c = c := by
  cases hl : l.getLast? with
  | none => rfl
  | some x =>
    have hx : x ∈ l := List.mem_of_mem_getLast? (by rw [hl]; rfl)
    simp [h x hx]

/-- The trailing SMA over a constant price series is the constant. -/
theorem smaAt_replicate (c : ℚ) (n t w : ℕ) (hw : 1 ≤ w) (hwt : w ≤ t + 1)
    (htn : t < n) : smaAt (List.replicate n c) t w = c := by
  rw [smaAt, List.drop_replicate, List.take_replicate]
  have hmin : w ⊓ (n - (t + 1 - w)) = w := by omega
  rw [hmin, List.sum_replicate, nsmul_eq_mul]
  have hw0 : (w : ℚ) ≠ 0 := by
    exact_mod_cast Nat.one_le_iff_ne_zero.mp hw
  exact mul_div_cancel_left₀ c hw0

/-- When the two SMAs tie on every in-window bar, the signal fold keeps
every state `FLAT`. -/
theorem foldl_signalStep_flat (closes : List ℚ) (shortW longW : ℕ)
    (hconst : ∀ t, t < closes.length → ¬ (t + 1 < longW) →
      smaAt closes t shortW = smaAt closes t longW)
    (l : List ℕ) (hl : ∀ t ∈ l, t < closes.length)
    (acc : List SigState × SigState)
    (hacc1 : ∀ s ∈ acc.1, s = SigState.FLAT)
    (hacc2 : acc.2 = SigState.FLAT) :
    (∀ s ∈ (l.foldl (signalStep closes shortW longW) acc).1,
      s = SigState.FLAT) ∧
    (l.foldl (signalStep closes shortW longW) acc).2 = SigState.FLAT := by
  induction l generalizing acc with
  | nil => exact ⟨hacc1, hacc2⟩
  | cons t rest ih =>
    have ht : t < closes.length := hl t (List.mem_cons_self t rest)
    have hrest : ∀ u ∈ rest, u < closes.length :=
      fun u hu => hl u (List.mem_cons_of_mem t hu)
    have hst : (signalStep closes shortW longW acc t).2 = SigState.FLAT := by
      rw [signalStep]
      by_cases hlt : t + 1 < longW
      · simp [hlt]
      · have heq := hconst t ht hlt
        simp [hlt, heq, hacc2]
    have hst1 : ∀ s ∈ (signalStep closes shortW longW acc t).1,
        s = SigState.FLAT := by
      intro s hs
      have : s ∈ acc.1 ++ [(signalStep closes shortW longW acc t).2] := hs
      rcases List.mem_append.mp this with h1 | h2
      · exact hacc1 s h1
      · rw [List.mem_singleton.mp h2, hst]
    rw [List.foldl_cons]
    exact ih hrest (signalStep closes shortW longW acc t) hst1 hst

/-- When the two SMAs tie on every in-window bar, every signal is `FLAT`. -/
theorem signalSeries_all_flat_of_tie (closes : List ℚ) (shortW longW : ℕ)
    (hconst : ∀ t, t < closes.length → ¬ (t + 1 < longW) →
      smaAt closes t shortW = smaAt closes t longW) :
    ∀ s ∈ signalSeries closes shortW longW, s = SigState.FLAT :=
  (foldl_signalStep_flat closes shortW longW hconst
    (List.range closes.length) (fun t ht => List.mem_range.mp ht)
    ([], SigState.FLAT) (by simp) rfl).1

/-- A constant price series produces no signal at all: every state is
`FLAT` (pre-window bars by the no-signal rule, later bars by the tie
rule). -/
theorem signalSeries_replicate_flat (c : ℚ) (n shortW longW : ℕ)
    (hs : 1 ≤ shortW) (hsl : shortW ≤ longW) :
    ∀ s ∈ signalSeries (List.replicate n c) shortW longW,
      s = SigState.FLAT := by
  apply signalSeries_all_flat_of_tie
  intro t ht hlt
  rw [List.length_replicate] at ht
  have h1 : longW ≤ t + 1 := by omega
  rw [smaAt_replicate c n t shortW hs (by omega) ht,
    smaAt_replicate c n t longW (by omega) h1 ht]

/-- A backtest whose signal series never leaves `FLAT` produces no trades:
final capital equals initial capital, the equity curve is constant with
one point per bar, Sharpe and win rate are undefined, and the maximum
drawdown is 0. -/
theorem runBacktest_all_flat (sqrtQ : ℚ → ℚ) (rf ppy : ℚ)
    (bars : List PriceBar) (shortW longW : ℕ) (capital : ℚ)
    (hlw : longW ≤ bars.length)
    (hflat : ∀ s ∈ signalSeries (bars.map PriceBar.close) shortW longW,
      s = SigState.FLAT) :
    runBacktest sqrtQ rf ppy bars shortW longW capital =
      .ok { initial_capital := capital
          , final_capital := capital
          , total_return := 0
          , sharpe_ratio := none
          , max_drawdown := some 0
          , win_rate := none
          , total_trades := 0
          , trades := []
          , equity_curve := List.replicate bars.length capital } := by
  have hng : ¬ (bars.map PriceBar.close).length < longW := by
    rw [List.length_map]
    omega
  have hgen : generateSignals (bars.map PriceBar.close) shortW longW =
      .ok (signalSeries (bars.map PriceBar.close) shortW longW) := by
    rw [generateSignals, if_neg hng]
  have hlen : (signalSeries (bars.map PriceBar.close) shortW longW).length =
      bars.length := by
    rw [signalSeries_length, List.length_map]
  have hsim := simulate_all_flat bars
    (signalSeries (bars.map PriceBar.close) shortW longW) capital hflat
  rw [hlen] at hsim
  have hmin : min bars.length (bars.length + 1) = bars.length := by omega
  rw [hmin] at hsim
  have hconstEq : ∀ x ∈ List.replicate bars.length capital, x = capital :=
    fun x hx => List.eq_of_mem_replicate hx
  have hlast : (List.replicate bars.length capital).getLast?.getD capital =
      capital := getLastD_of_const _ _ hconstEq
  have hvar : varianceQ (perBarReturns (List.replicate bars.length capital)) = 0 :=
    varianceQ_of_const _ (capital / capital - 1)
      (perBarReturns_of_const _ capital hconstEq)
  have hsharpe : sharpeRatioQ sqrtQ rf ppy
      (perBarReturns (List.replicate bars.length capital)) = none := by
    rw [sharpeRatioQ, if_pos (Or.inr hvar)]
  have hdd : maxDrawdownQ (List.replicate bars.length capital) = 0 :=
    maxDrawdownQ_of_const _ capital hconstEq
  rw [runBacktest, hgen]
  simp only [hsim, flatState, hlast, hsharpe, hdd]
  simp [winRateQ]

/-- A concrete two-bar constant price series (all prices 10). -/
def flatBars : List PriceBar :=
  [⟨0, 10, 10, 10, 10, 0⟩, ⟨1, 10, 10, 10, 10, 0⟩]

/-- C2 counterexample: a concrete zero-crossover backtest (constant
prices, short window 1, long window 2) reports `total_trades = 0` with
`max_drawdown = some 0` — a number, not the undefined/null value the claim
asserts for it. -/
theorem zero_trade_drawdown_is_zero_not_null :
    runBacktest id 0 252 flatBars 1 2 10000 =
      .ok { initial_capital := 10000
          , final_capital := 10000
          , total_return := 0
          , sharpe_ratio := none
          , max_drawdown := some 0
          , win_rate := none
          , total_trades := 0
          , trades := []
          , equity_curve := List.replicate 2 10000 } ∧
    some (0 : ℚ) ≠ (none : Option ℚ) := by
  refine ⟨?_, by simp⟩
  have hflat : ∀ s ∈ signalSeries (flatBars.map PriceBar.close) 1 2,
      s = SigState.FLAT :=
    fun s hs => signalSeries_replicate_flat 10 2 1 2 (by decide) (by decide) s hs
  exact runBacktest_all_flat id 0 252 flatBars 1 2 10000 (by decide) hflat

/-- C2 (amended): a backtest over a series with enough bars whose signal
series never leaves `FLAT` (zero crossovers) is a valid result, not a
failure: `total_trades = 0`, `final_capital = initial_capital`,
`sharpe_ratio` and `win_rate` are undefined (`none`) while `max_drawdown`
is the number 0, and the persisted schema keeps `total_return`,
`total_trades`, `initial_capital` and `final_capital` NOT NULL while
permitting NULL for the ratio columns. -/
theorem zero_crossover_backtest_valid (sqrtQ : ℚ → ℚ) (rf ppy : ℚ)
    (bars : List PriceBar) (shortW longW : ℕ) (capital : ℚ)
    (hlw : longW ≤ bars.length)
    (hflat : ∀ s ∈ signalSeries (bars.map PriceBar.close) shortW longW,
      s = SigState.FLAT) :
    runBacktest sqrtQ rf ppy bars shortW longW capital =
      .ok { initial_capital := capital
          , final_capital := capital
          , total_return := 0
          , sharpe_ratio := none
          , max_drawdown := some 0
          , win_rate := none
          , total_trades := 0
          , trades := []
          , equity_curve := List.replicate bars.length capital } ∧
    colNullable backtest_results "sharpe_ratio" = some true ∧
    colNullable backtest_results "max_drawdown" = some true ∧
    colNullable backtest_results "win_rate" = some true ∧
    colNullable backtest_results "total_return" = some false ∧
    colNullable backtest_results "total_trades" = some false ∧
    colNullable backtest_results "initial_capital" = some false ∧
    colNullable backtest_results "final_capital" = some false :=
  ⟨runBacktest_all_flat sqrtQ rf ppy bars shortW longW capital hlw hflat,
    by decide, by decide, by decide, by decide, by decide, by decide, by decide⟩

/-- Witness for the amended C2 at the concrete constant-price series. -/
theorem zero_crossover_backtest_valid_witness :
    runBacktest id 0 252 flatBars 1 2 10000 =
      .ok { initial_capital := 10000
          , final_capital := 10000
          , total_return := 0
          , sharpe_ratio := none
          , max_drawdown := some 0
          , win_rate := none
          , total_trades := 0
          , trades := []
          , equity_curve := List.replicate 2 10000 } ∧
    colNullable backtest_results "sharpe_ratio" = some true ∧
    colNullable backtest_results "max_drawdown" = some true ∧
    colNullable backtest_results "win_rate" = some true ∧
    colNullable backtest_results "total_return" = some false ∧
    colNullable backtest_results "total_trades" = some false ∧
    colNullable backtest_results "initial_capital" = some false ∧
    colNullable backtest_results "final_capital" = some false :=
  zero_crossover_backtest_valid id 0 252 flatBars 1 2 10000 (by decide)
    (fun s hs =>
      signalSeries_replicate_flat 10 2 1 2 (by decide) (by decide) s hs)

/-! ## Request validation, modelled from the spec (§6, §7)

The Backtest page (`handleSubmit`) forwards the form's
`{symbol, asset_type, start_date, end_date, short_window, long_window,
initial_capital}` to the backend without client-side cross-field checks;
the backend validation is not under `src/` and is modelled from the
spec. -/

/-- A backtest request as assembled by `handleSubmit` (dates as epoch
values; the windows arrive as parsed integers). -/
structure BacktestRequest where
  symbol : String
  asset_type : String
  start_date : ℕ
  end_date : ℕ
  short_window : ℤ
  long_window : ℤ
  initial_capital : ℚ
  deriving DecidableEq

/-- Modelled from the spec (§7, backend validation absent from `src/`):
`InvalidParameterError` on non-positive windows or capital, on
`short_window ≥ long_window`, and on `start_date ≥ end_date`; surfaced
immediately. -/
def validateBacktestParams (r : BacktestRequest) : Except CoreError Unit :=
  if r.short_window ≤ 0 ∨ r.long_window ≤ 0 ∨ r.initial_capital ≤ 0 then
    .error .invalidParameter
  else if r.long_window ≤ r.short_window then .error .invalidParameter
  else if r.end_date ≤ r.start_date then .error .invalidParameter
  else .ok ()

/-- Modelled from the spec (§6, §7): the request-level entry point —
validate the parameters first, and only on success run the backtest over
the supplied price series. -/
def runBacktestRequest (sqrtQ : ℚ → ℚ) (rf ppy : ℚ) (r : BacktestRequest)
    (bars : List PriceBar) : Except CoreError BacktestResult :=
  match validateBacktestParams r with
  | .error e => .error e
  | .ok _ => runBacktest sqrtQ rf ppy bars r.short_window.toNat
      r.long_window.toNat r.initial_capital

/-- C6: every request with a non-positive window or capital, with
`short_window ≥ long_window`, or with `start_date ≥ end_date` fails with
`InvalidParameterError` — uniformly in the price series, so no partial
computation over the data can be observed; in particular no request with
`short_window ≥ long_window` is ever accepted. -/
theorem invalid_backtest_request_rejected (sqrtQ : ℚ → ℚ) (rf ppy : ℚ)
    (r : BacktestRequest)
    (h : r.short_window ≤ 0 ∨ r.long_window ≤ 0 ∨ r.initial_capital ≤ 0 ∨
      r.long_window ≤ r.short_window ∨ r.end_date ≤ r.start_date) :
    ∀ bars : List PriceBar,
      runBacktestRequest sqrtQ rf ppy r bars =
        .error CoreError.invalidParameter := by
  intro bars
  have hval : validateBacktestParams r = .error .invalidParameter := by
    rw [validateBacktestParams]
    rcases h with h1 | h2 | h3 | h4 | h5
    · rw [if_pos (Or.inl h1)]
    · rw [if_pos (Or.inr (Or.inl h2))]
    · rw [if_pos (Or.inr (Or.inr h3))]
    · by_cases hfst : r.short_window ≤ 0 ∨ r.long_window ≤ 0 ∨
        r.initial_capital ≤ 0
      · rw [if_pos hfst]
      · rw [if_neg hfst, if_pos h4]
    · by_cases hfst : r.short_window ≤ 0 ∨ r.long_window ≤ 0 ∨
        r.initial_capital ≤ 0
      · rw [if_pos hfst]
      · rw [if_neg hfst]
        by_cases hsnd : r.long_window ≤ r.short_window
        · rw [if_pos hsnd]
        · rw [if_neg hsnd, if_pos h5]
  rw [runBacktestRequest, hval]

/-- A concrete inverted-window request (short 30 ≥ long 10). -/
def badRequest : BacktestRequest :=
  ⟨"AAPL", "stock", 0, 100, 30, 10, 10000⟩

/-- Witness for C6: the inverted-window request is rejected, regardless of
data (here: the empty series). -/
theorem invalid_backtest_request_rejected_witness :
    runBacktestRequest id 0 252 badRequest [] =
      .error CoreError.invalidParameter :=
  invalid_backtest_request_rejected id 0 252 badRequest
    (Or.inr (Or.inr (Or.inr (Or.inl (by decide))))) []

/-! ## Monte Carlo simulation, modelled from the spec (§4.4, §5)

The Monte Carlo engine is not under `src/`.  Per the spec, each of the `N`
paths has its own deterministically seeded random source
(`base_seed + path_index`), each day's sampled return is drawn from that
source, and the path value compounds `initial * Π (1 + r_i)`.  The raw
pseudo-random stream is a linear congruential generator standing in for
the seeded source, and the mapping from a raw draw to a sampled daily
return (the distribution) is abstracted as `sample`. -/

/-- One step of the deterministic pseudo-random source. -/
def lcgNext (s : ℕ) : ℕ := (1103515245 * s + 12345) % 2147483648

/-- Modelled from the spec (§4.4): one simulated path over `horizon`
days from its own seed: day `d`'s value is
`initialValue * Π_(i ≤ d) (1 + sampled_return_i)`. -/
def genPath (sample : ℕ → ℚ) (seed : ℕ) (horizon : ℕ)
    (initialValue : ℚ) : List ℚ :=
  ((List.range horizon).foldl
    (fun (acc : List ℚ × ℕ × ℚ) _ =>
      let s := lcgNext acc.2.1
      let v := acc.2.2 * (1 + sample s)
      (acc.1 ++ [v], s, v))
    ([], seed, initialValue)).1

/-- Modelled from the spec (§4.4, §5): the full path grid — `paths`
independent paths, path `i` seeded `baseSeed + i`. -/
def monteCarloGrid (sample : ℕ → ℚ) (baseSeed paths horizon : ℕ)
    (initialValue : ℚ) : List (List ℚ) :=
  (List.range paths).map fun i =>
    genPath sample (baseSeed + i) horizon initialValue

/-- C8: signal generation, the backtest and Monte Carlo simulation are
deterministic functions of their inputs — runs on equal inputs give equal
signal series, equal backtest results and equal path grids (in particular
the seed-42, 1000-path, 252-day grid is reproduced bit-identically) — and
each grid row `i` is exactly the independent path seeded
`baseSeed + i`. -/
theorem backtest_and_monte_carlo_deterministic (sqrtQ : ℚ → ℚ)
    (rf ppy : ℚ) (sample : ℕ → ℚ) :
    (∀ (c₁ c₂ : List ℚ) (sw₁ sw₂ lw₁ lw₂ : ℕ), c₁ = c₂ → sw₁ = sw₂ →
      lw₁ = lw₂ → generateSignals c₁ sw₁ lw₁ = generateSignals c₂ sw₂ lw₂) ∧
    (∀ (b₁ b₂ : List PriceBar) (sw₁ sw₂ lw₁ lw₂ : ℕ) (cap₁ cap₂ : ℚ),
      b₁ = b₂ → sw₁ = sw₂ → lw₁ = lw₂ → cap₁ = cap₂ →
      runBacktest sqrtQ rf ppy b₁ sw₁ lw₁ cap₁ =
        runBacktest sqrtQ rf ppy b₂ sw₂ lw₂ cap₂) ∧
    (∀ (s₁ s₂ n₁ n₂ h₁ h₂ : ℕ) (v₁ v₂ : ℚ), s₁ = s₂ → n₁ = n₂ → h₁ = h₂ →
      v₁ = v₂ → monteCarloGrid sample s₁ n₁ h₁ v₁ =
        monteCarloGrid sample s₂ n₂ h₂ v₂) ∧
    monteCarloGrid sample 42 1000 252 10000 =
      monteCarloGrid sample 42 1000 252 10000 ∧
    (∀ (seed paths horizon i : ℕ) (v : ℚ), i < paths →
      (monteCarloGrid sample seed paths horizon v).getD i [] =
        genPath sample (seed + i) horizon v) := by
  refine ⟨?_, ?_, ?_, rfl, ?_⟩
  · intro c₁ c₂ sw₁ sw₂ lw₁ lw₂ hc hsw hlw
    rw [hc, hsw, hlw]
  · intro b₁ b₂ sw₁ sw₂ lw₁ lw₂ cap₁ cap₂ hb hsw hlw hcap
    rw [hb, hsw, hlw, hcap]
  · intro s₁ s₂ n₁ n₂ h₁ h₂ v₁ v₂ hs hn hh hv
    rw [hs, hn, hh, hv]
  · intro seed paths horizon i v hi
    rw [monteCarloGrid]
    rw [List.getD_eq_getElem _ _ (by simpa using hi)]
    simp

/-- Witness for C8: row 1 of a concrete 3-path grid is the path seeded
`42 + 1`. -/
theorem backtest_and_monte_carlo_deterministic_witness :
    (monteCarloGrid (fun _ => 0) 42 3 2 100).getD 1 [] =
      genPath (fun _ => 0) (42 + 1) 2 100 :=
  (backtest_and_monte_carlo_deterministic id 0 252
    (fun _ => 0)).2.2.2.2 42 3 2 1 100 (by decide)

end TradeLab
